import Mathlib

/-! Verification development for the BM25 search and analysis engine of the
go-sqlite repository (module 02-bm25-fundamentals). The definitions below are
shallow embeddings of the Go source, chiefly handlers/search.go together with
models/search.go, models/analysis.go, models/corpus.go and errors/errors.go.
Float64 values are embedded as rationals (exact arithmetic); the behaviour the
source delegates to SQLite (bm25 scoring, SQL clause execution) is not in the
repository and is modelled from the specification where a claim needs it, with
a doc comment saying so. -/

/-! Section 1: text utilities used by the handlers.  Go strings are modelled
as lists of characters; all embedded text here is ASCII, where the Go byte
oriented operations and the character list operations coincide. -/

/-- Lowercases a list of characters, as strings.ToLower does on ASCII text. -/
def toLowerL (l : List Char) : List Char := l.map Char.toLower

/-- Scanning loop of strings.Count: counts non-overlapping instances of pat,
advancing past a match.  The extra fuel argument makes the recursion
structural; callers pass the text length, which bounds the number of steps,
so the fuel never runs out. -/
def countOccsGo (pat : List Char) : ℕ → List Char → ℕ
  | 0, _ => 0
  | _ + 1, [] => 0
  | fuel + 1, c :: rest =>
    if pat.isPrefixOf (c :: rest) then
      1 + countOccsGo pat fuel (List.drop (pat.length - 1) rest)
    else
      countOccsGo pat fuel rest

/-- Embeds strings.Count(text, pat): the number of non-overlapping instances
of pat in text; for an empty pattern Go returns the rune count plus one. -/
def countOccs (text pat : List Char) : ℕ :=
  if pat.isEmpty then text.length + 1 else countOccsGo pat text.length text

/-- Embeds strings.Index: index of the first occurrence of pat in text, or
none when absent (Go returns -1). -/
def firstIndex (pat : List Char) : List Char → Option ℕ
  | [] => if pat.isEmpty then some 0 else none
  | c :: rest =>
    if pat.isPrefixOf (c :: rest) then some 0
    else (firstIndex pat rest).map (· + 1)

/-- Accumulator loop for strings.Fields; cur holds the current word in
reverse order. -/
def fieldsGo : List Char → List Char → List (List Char)
  | [], cur => if cur.isEmpty then [] else [cur.reverse]
  | c :: rest, cur =>
    if c.isWhitespace then
      if cur.isEmpty then fieldsGo rest [] else cur.reverse :: fieldsGo rest []
    else fieldsGo rest (c :: cur)

/-- Embeds strings.Fields: splits text around runs of whitespace. -/
def fieldsL (l : List Char) : List (List Char) := fieldsGo l []

/-- Embeds strings.TrimSpace: strips leading and trailing whitespace. -/
def trimSpaceL (l : List Char) : List Char :=
  ((l.dropWhile Char.isWhitespace).reverse.dropWhile Char.isWhitespace).reverse

/-- Computable floor of a rational; embeds math.Floor applied to an exactly
represented value. -/
def ratFloor (q : ℚ) : ℤ := q.num / q.den

/-- Computable ceiling of a rational; embeds math.Ceil. -/
def ratCeil (q : ℚ) : ℤ := -ratFloor (-q)

/-- Embeds the Go conversion int(x) on a float value: truncation toward
zero. -/
def ratTrunc (q : ℚ) : ℤ := if 0 ≤ q then ratFloor q else ratCeil q

/-! Section 2: data model, embedded from models/corpus.go, models/search.go
and models/analysis.go.  Time values are carried as integers and float64
fields as rationals. -/

/-- Embeds models.Document (models/corpus.go): a stored document row. -/
structure Document where
  id : ℤ
  title : String
  content : String
  category : String
  length : ℕ
  created : ℤ
deriving DecidableEq

/-- Embeds models.SearchResult (models/search.go): a document with its BM25
score, optional snippet and relevance label. -/
structure SearchResult extends Document where
  score : ℚ
  snippet : String := ""
  relevance : String := ""
deriving DecidableEq

/-- Embeds models.SearchOptions (models/search.go).  The Go ColumnWeights map
is carried as an association list. -/
structure SearchOptions where
  query : String
  maxResults : ℤ
  columnWeights : List (String × ℚ)
  categoryFilter : String
  includeSnippet : Bool
  snippetLength : ℤ
  explainScores : Bool
deriving DecidableEq

/-- Embeds models.DefaultSearchOptions (models/search.go lines 27-35); the
fields the Go literal leaves out take the Go zero values. -/
def defaultSearchOptions : SearchOptions :=
  { query := ""
    maxResults := 20
    columnWeights := []
    categoryFilter := ""
    includeSnippet := true
    snippetLength := 200
    explainScores := false }

/-- Embeds models.ScoreBucket (models/analysis.go).  The Label field of the
source is a display string rendered from lo and hi with the fmt verb %.2f and
carries no further information, so it is not carried here. -/
structure ScoreBucket where
  lo : ℚ
  hi : ℚ
  count : ℕ
deriving DecidableEq

/-- Embeds models.ScoreDistribution (models/analysis.go).  The source stores
StdDev, which is math.Sqrt of the variance; the radicand is carried so the
embedding stays in exact arithmetic (the square root is zero, positive or
equal exactly when the variance is). -/
structure ScoreDistribution where
  mean : ℚ
  median : ℚ
  variance : ℚ
  percentiles : List (ℕ × ℚ)
  buckets : List ScoreBucket
deriving DecidableEq

/-- Embeds models.ScoreRange (models/analysis.go), with StdDev carried as its
radicand as in ScoreDistribution. -/
structure ScoreRange where
  best : ℚ
  worst : ℚ
  mean : ℚ
  median : ℚ
  variance : ℚ
deriving DecidableEq

/-- The Go zero value of ScoreRange. -/
def ScoreRange.zero : ScoreRange := ⟨0, 0, 0, 0, 0⟩

/-- The Go zero value of ScoreDistribution (nil map and nil slice become
empty lists). -/
def ScoreDistribution.zero : ScoreDistribution := ⟨0, 0, 0, [], []⟩

/-- Embeds models.SearchStats (models/search.go). -/
structure SearchStats where
  query : String
  totalResults : ℕ
  executionTime : ℤ
  scoreRange : ScoreRange
  scoreDistrib : ScoreDistribution
  categoryBreakdown : List (String × ℕ)
deriving DecidableEq

/-- Embeds models.TermScore (models/analysis.go). -/
structure TermScore where
  term : String
  tf : ℚ
  idf : ℚ
  fieldTF : ℚ
  score : ℚ
deriving DecidableEq

/-- Embeds models.FieldScore (models/analysis.go). -/
structure FieldScore where
  score : ℚ
  weight : ℚ
  terms : List TermScore
deriving DecidableEq

/-- Embeds models.DocumentStats (models/analysis.go). -/
structure DocumentStats where
  length : ℕ
  avgLength : ℚ
  lengthNorm : ℚ
  fieldLengths : List (String × ℕ)
deriving DecidableEq

/-- Embeds models.ScoreExplanation (models/analysis.go). -/
structure ScoreExplanation where
  documentID : ℤ
  totalScore : ℚ
  fieldScores : List (String × FieldScore)
  queryTerms : List TermScore
  documentStats : DocumentStats
deriving DecidableEq

/-- Embeds the sentinel error taxonomy of errors/errors.go: ErrValidation,
ErrDatabase, ErrFTS5, ErrNotFound, ErrTransaction, ErrAnalysis and
ErrVisualization are the only error kinds the package defines. -/
inductive ErrKind where
  | validation
  | database
  | fts5
  | notFound
  | transaction
  | analysis
  | visualization
deriving DecidableEq

/-! Section 3: the statistics pipeline of handlers/search.go, embedded over
rationals.  The float slice sort performed in place by sort.Float64s is
embedded as insertion sort; any correct ascending sort produces the same
list of values. -/

/-- Helper for the bucket counting loop of createScoreBuckets: increments the
count of the bucket at the given position (buckets[bucketIndex].Count++). -/
def incrBucket : List ScoreBucket → ℕ → List ScoreBucket
  | [], _ => []
  | b :: bs, 0 => { b with count := b.count + 1 } :: bs
  | b :: bs, n + 1 => b :: incrBucket bs n

/-- The bucket index computed at search.go lines 495-498: truncating float to
int conversion of (score - lo) / width, clamped into the last bucket when it
reaches or exceeds the bucket count.  The Int.toNat at the end is exact for
the call sites proved about below, where the raw index is nonnegative. -/
def goBucketIndex (lo w : ℚ) (numBuckets : ℕ) (s : ℚ) : ℕ :=
  (if (numBuckets : ℤ) ≤ ratTrunc ((s - lo) / w) then (numBuckets : ℤ) - 1
   else ratTrunc ((s - lo) / w)).toNat

/-- Embeds createScoreBuckets (search.go lines 465-503).  The scores argument
arrives already sorted ascending at the call site, so scores[0] and
scores[len-1] below are the minimum and maximum. -/
def createScoreBuckets (scores : List ℚ) (numBuckets : ℕ) : List ScoreBucket :=
  match scores with
  | [] => []
  | s0 :: _ =>
    let lo := s0
    let hi := scores.getLast?.getD s0
    if lo = hi then
      [{ lo := lo, hi := hi, count := scores.length }]
    else
      let w := (hi - lo) / (numBuckets : ℚ)
      let init := (List.range numBuckets).map fun i =>
        { lo := lo + (i : ℚ) * w, hi := lo + ((i : ℚ) + 1) * w, count := 0 }
      scores.foldl (fun bs s => incrBucket bs (goBucketIndex lo w numBuckets s)) init

/-- The fixed percentile levels of search.go line 428. -/
def percentileLevels : List ℕ := [25, 50, 75, 90, 95, 99]

/-- Embeds the percentile computation of search.go lines 429-441 on the
sorted score list: index = p/100 * (n-1), then linear interpolation between
the entries at the floor and ceiling of that index. -/
def percentileAt (sorted : List ℚ) (p : ℕ) : ℚ :=
  let index : ℚ := (p : ℚ) / 100 * ((sorted.length : ℚ) - 1)
  let lower := (ratFloor index).toNat
  let upper := (ratCeil index).toNat
  if lower = upper then sorted.getD lower 0
  else
    let weight := index - ((ratFloor index : ℤ) : ℚ)
    sorted.getD lower 0 * (1 - weight) + sorted.getD upper 0 * weight

/-- Embeds calculateScoreDistribution (search.go lines 393-447).  The Go
function first sorts the slice in place; it returns the zero distribution for
an empty slice, and otherwise the mean, the median, the variance (whose
square root the source stores as StdDev), the percentile map over the fixed
levels, and ten histogram buckets. -/
def calculateScoreDistribution (scores0 : List ℚ) : ScoreDistribution :=
  let scores := List.insertionSort (· ≤ ·) scores0
  let n := scores.length
  if n = 0 then ScoreDistribution.zero
  else
    let mean := scores.sum / (n : ℚ)
    let median :=
      if n % 2 = 0 then (scores.getD (n / 2 - 1) 0 + scores.getD (n / 2) 0) / 2
      else scores.getD (n / 2) 0
    let variance := (scores.map fun s => (s - mean) * (s - mean)).sum / (n : ℚ)
    { mean := mean
      median := median
      variance := variance
      percentiles := percentileLevels.map fun p => (p, percentileAt scores p)
      buckets := createScoreBuckets scores 10 }

/-- Embeds GetSearchStats (search.go lines 28-62).  For an empty result list
the Go function returns a stats object holding only the query, a zero result
count and the execution time, together with a nil error; otherwise it
collects the scores in result order, counts categories, computes the score
distribution (which sorts the score slice in place) and then reads the
sorted slice for the range fields.  The Go signature returns (stats, error)
and the error is always nil; the Except mirrors the signature. -/
def getSearchStats (results : List SearchResult) (query : String)
    (executionTime : ℤ) : Except ErrKind SearchStats :=
  if results.length = 0 then
    .ok { query := query
          totalResults := 0
          executionTime := executionTime
          scoreRange := ScoreRange.zero
          scoreDistrib := ScoreDistribution.zero
          categoryBreakdown := [] }
  else
    let scores := results.map (·.score)
    let breakdown := (results.map (·.category)).foldl
      (fun acc c =>
        match acc.lookup c with
        | some k => acc.map fun e => if e.1 = c then (e.1, k + 1) else e
        | none => acc ++ [(c, 1)]) []
    let distrib := calculateScoreDistribution scores
    let sorted := List.insertionSort (· ≤ ·) scores
    .ok { query := query
          totalResults := results.length
          executionTime := executionTime
          scoreRange :=
            { best := sorted.getD 0 0
              worst := sorted.getD (sorted.length - 1) 0
              mean := distrib.mean
              median := distrib.median
              variance := distrib.variance }
          scoreDistrib := distrib
          categoryBreakdown := breakdown }

/-! Section 4: snippet generation, embedded from generateSnippet in
handlers/search.go (lines 626-673). -/

/-- The term location loop of generateSnippet (search.go lines 631-645):
earliestPos starts at the content length, each query term found earlier
lowers it, and when no term was found it is reset to the beginning. -/
def snippetEarliestPos (content query : String) : ℤ :=
  let queryTerms := fieldsL (toLowerL query.toList)
  let contentLower := toLowerL content.toList
  let earliestPos : ℤ := queryTerms.foldl
    (fun e t =>
      match firstIndex t contentLower with
      | some pos => if (pos : ℤ) < e then (pos : ℤ) else e
      | none => e) (content.toList.length : ℤ)
  if earliestPos = (content.toList.length : ℤ) then 0 else earliestPos

/-- The boundary clamping of generateSnippet (search.go lines 647-660): the
start moves a quarter length before the earliest position and is clamped at
zero; the stop is one length later and, when it overruns the content, both
bounds are pulled back.  The integer division acts on a positive operand,
where Go truncation and Lean division agree. -/
def snippetClamp (len ep maxLength : ℤ) : ℤ × ℤ :=
  let start := ep - maxLength / 4
  let start := if start < 0 then 0 else start
  let stop := start + maxLength
  if len < stop then
    let start2 := len - maxLength
    (if start2 < 0 then 0 else start2, len)
  else
    (start, stop)

/-- The boundary computation of generateSnippet (search.go lines 627-660):
a maxLength of at most zero becomes 200, then the clamp runs at the located
earliest term position. -/
def snippetBounds (content query : String) (maxLength0 : ℤ) : ℤ × ℤ :=
  let maxLength := if maxLength0 ≤ 0 then 200 else maxLength0
  snippetClamp (content.toList.length : ℤ) (snippetEarliestPos content query)
    maxLength

/-- Embeds generateSnippet (search.go lines 626-673): slices the content at
the computed bounds, adds leading and trailing ellipses when the slice is a
proper prefix or suffix, and trims surrounding whitespace. -/
def generateSnippet (content query : String) (maxLength0 : ℤ) : List Char :=
  let contentL := content.toList
  let b := snippetBounds content query maxLength0
  let snippet := (contentL.drop b.1.toNat).take (b.2 - b.1).toNat
  let snippet := (if 0 < b.1 then "...".toList else []) ++ snippet ++
    (if b.2 < contentL.length then "...".toList else [])
  trimSpaceL snippet

/-! Section 5: the BM25 explanation helpers of handlers/search.go
(lines 704-874), embedded over rationals. -/

/-- Embeds calculateLengthNormalization (search.go lines 807-812): the BM25
length normalization k1 * ((1 - b) + b * docLength / avgLength) with the
fixed parameters k1 = 1.2 and b = 0.75. -/
def calculateLengthNormalization (docLength : ℕ) (avgLength : ℚ) : ℚ :=
  (6 / 5) * ((1 - 3 / 4) + (3 / 4) * ((docLength : ℚ) / avgLength))

/-- Embeds calculateTermScore (search.go lines 814-838): the term frequency
is the substring occurrence count of the term in the lowercased
concatenation of title, content and category; the idf is the mock value
3.0 - tf * 0.1 floored at 0.1 (the source comments call it a simplified
placeholder); the per-term score is idf * tf / lengthNorm. -/
def calculateTermScore (term : String) (result : SearchResult)
    (avgDocLength : ℚ) : TermScore :=
  let text := toLowerL
    (result.title ++ " " ++ result.content ++ " " ++ result.category).toList
  let tf : ℚ := (countOccs text term.toList : ℚ)
  let idf0 : ℚ := 3 - tf * (1 / 10)
  let idf := if idf0 < 1 / 10 then 1 / 10 else idf0
  let lengthNorm := calculateLengthNormalization result.length avgDocLength
  { term := term
    tf := tf
    idf := idf
    fieldTF := tf
    score := idf * tf / lengthNorm }

/-- The weight lookup written inline twice in the source (search.go lines
349-363 and 841-846): the weight of a field, defaulting to 1.0 when the
field is absent from the map. -/
def fieldWeight (weights : List (String × ℚ)) (fieldName : String) : ℚ :=
  (weights.lookup fieldName).getD 1

/-- Embeds calculateFieldScore (search.go lines 840-874): each query term
contributes tf * weight * 0.1 to the field score, with tf the substring
occurrence count in the lowercased field content; the per-term records carry
a zero idf (the Go literal omits the IDF field). -/
def calculateFieldScore (fieldName fieldContent : String)
    (queryTerms : List String) (weights : List (String × ℚ)) : FieldScore :=
  let weight := fieldWeight weights fieldName
  let fieldText := toLowerL fieldContent.toList
  let step := queryTerms.foldl
    (fun (acc : ℚ × List TermScore) term =>
      let tf : ℚ := (countOccs fieldText term.toList : ℚ)
      let fieldContrib := tf * weight * (1 / 10)
      (acc.1 + fieldContrib,
        acc.2 ++ [{ term := term, tf := tf, idf := 0, fieldTF := tf,
                    score := fieldContrib }]))
    (0, [])
  { score := step.1, weight := (fieldWeight weights fieldName), terms := step.2 }

/-- Embeds getAverageDocumentLength (search.go lines 797-805), which runs
SELECT AVG(length) FROM documents and scans the value into a float64.
Modelled from the spec for the part living in SQLite: on an empty table the
SQL aggregate AVG yields NULL, the scan of NULL into float64 fails, and the
handler wraps the failure with errors.Databasef; on a non-empty table AVG is
the exact mean of the length column. -/
def getAverageDocumentLength (corpus : List Document) : Except ErrKind ℚ :=
  if corpus.isEmpty then .error .database
  else .ok (((corpus.map (·.length)).sum : ℚ) / (corpus.length : ℚ))

/-- Embeds GenerateScoreExplanations (search.go lines 704-750): fetches the
corpus average document length (failing as that helper fails), lowercases
and splits the query into terms, and builds one explanation per result with
the per-term mock scores and the per-field scores. -/
def generateScoreExplanations (corpus : List Document)
    (results : List SearchResult) (options : SearchOptions) :
    Except ErrKind (List ScoreExplanation) :=
  match getAverageDocumentLength corpus with
  | .error e => .error e
  | .ok avgDocLength =>
    let queryTerms := (fieldsL (toLowerL options.query.toList)).map
      fun t => String.mk t
    .ok (results.map fun result =>
      { documentID := result.id
        totalScore := result.score
        fieldScores :=
          [("title", calculateFieldScore "title" result.title queryTerms
              options.columnWeights),
           ("content", calculateFieldScore "content" result.content queryTerms
              options.columnWeights),
           ("category", calculateFieldScore "category" result.category
              queryTerms options.columnWeights)]
        queryTerms := queryTerms.map
          fun term => calculateTermScore term result avgDocLength
        documentStats :=
          { length := result.length
            avgLength := avgDocLength
            lengthNorm := calculateLengthNormalization result.length
              avgDocLength
            fieldLengths :=
              [("title", (fieldsL result.title.toList).length),
               ("content", (fieldsL result.content.toList).length),
               ("category", (fieldsL result.category.toList).length)] } })

/-- The quantity the explain-consistency property speaks about: the sum of
the per-term partial contributions recorded in an explanation. -/
def explanationTermSum (e : ScoreExplanation) : ℚ :=
  (e.queryTerms.map (·.score)).sum

/-- Convenience projection used by the explain-consistency counterexample:
the per-explanation term sums of a GenerateScoreExplanations call. -/
def explanationSums (corpus : List Document) (results : List SearchResult)
    (options : SearchOptions) : Except ErrKind (List ℚ) :=
  (generateScoreExplanations corpus results options).map
    (List.map explanationTermSum)

/-! Section 6: query construction, embedded from buildSearchQuery in
handlers/search.go (lines 330-390), and the execution semantics of the
generated SQL, which the source delegates to SQLite and which is therefore
modelled from the spec. -/

/-- The observable structure of the SQL text and argument list assembled by
buildSearchQuery.  The source renders custom bm25 column weights into the
query text with the fmt verb %.2f; the weight values themselves are carried
here.  The clauses field lists the query parts appended after the base
SELECT, in order. -/
structure SqlQuery where
  weights : Option (ℚ × ℚ × ℚ)
  matchArg : String
  clauses : List String
  categoryArg : Option String
  limitArg : Option ℤ
deriving DecidableEq

/-- Embeds buildSearchQuery (search.go lines 330-390): custom column weights
produce a bm25(documents_fts, wTitle, wContent, wCategory) score expression
with 1.0 for every unspecified field, an empty weight map produces the
default bm25(documents_fts); a category filter appends an AND clause with
its argument; ORDER BY score is always appended (SQLite bm25 scores are
negative, lower meaning better); a positive MaxResults appends LIMIT with
the count as argument, and otherwise no LIMIT is emitted. -/
def buildSearchQuery (options : SearchOptions) : SqlQuery :=
  { weights :=
      if options.columnWeights.isEmpty then none
      else some (fieldWeight options.columnWeights "title",
        fieldWeight options.columnWeights "content",
        fieldWeight options.columnWeights "category")
    matchArg := options.query
    clauses :=
      (if options.categoryFilter ≠ "" then ["AND d.category = ?"] else []) ++
      ["ORDER BY score"] ++
      (if 0 < options.maxResults then ["LIMIT ?"] else [])
    categoryArg :=
      if options.categoryFilter ≠ "" then some options.categoryFilter else none
    limitArg := if 0 < options.maxResults then some options.maxResults else none }

/-- Modelled from the spec (section 4.1): the tokenizer lowercases and splits
on non-alphanumeric boundaries; empty input yields an empty sequence.  The
accumulator holds the current token in reverse order. -/
def specTokenizeGo : List Char → List Char → List (List Char)
  | [], cur => if cur.isEmpty then [] else [cur.reverse]
  | c :: rest, cur =>
    if c.isAlphanum then specTokenizeGo rest (c :: cur)
    else if cur.isEmpty then specTokenizeGo rest []
    else cur.reverse :: specTokenizeGo rest []

/-- Modelled from the spec (section 4.1): tokenize a string. -/
def specTokenize (s : String) : List (List Char) :=
  specTokenizeGo (toLowerL s.toList) []

/-- Modelled from the spec (section 4.4, mirroring default FTS5 MATCH
semantics): a document is a candidate exactly when every query term occurs
in at least one of its fields. -/
def matchesQuery (query : String) (d : Document) : Bool :=
  (specTokenize query).all fun t =>
    (specTokenize d.title ++ specTokenize d.content ++
      specTokenize d.category).contains t

/-- Modelled from the spec and SQL semantics: the ORDER BY score clause that
buildSearchQuery always emits constrains only the score order.  A row
sequence is a valid execution result exactly when it is a permutation of the
retained rows that is sorted ascending by score (SQLite bm25 scores are
negative, so ascending score is descending relevance); the relative order of
rows with equal scores is not constrained. -/
def orderByScoreValid (rows out : List SearchResult) : Prop :=
  List.Perm out rows ∧ List.Sorted (fun a b => a.score ≤ b.score) out

/-- Modelled from SQL LIMIT semantics: a LIMIT argument truncates the row
sequence, and an absent LIMIT leaves it unchanged. -/
def applyLimit (limitArg : Option ℤ) (rows : List SearchResult) :
    List SearchResult :=
  match limitArg with
  | none => rows
  | some n => rows.take n.toNat

/-- Modelled from the spec and SQL semantics: the rows the WHERE clause of
the built query retains, those matching the MATCH argument and, when the
category clause was emitted, the category argument. -/
def retainedRows (rows : List SearchResult) (options : SearchOptions) :
    List SearchResult :=
  rows.filter fun r =>
    matchesQuery (buildSearchQuery options).matchArg r.toDocument &&
      (match (buildSearchQuery options).categoryArg with
       | none => true
       | some c => r.category = c)

/-- Modelled from the spec: the outcomes of executing the query built by
buildSearchQuery over the scored rows the database holds.  The WHERE clause
retains matching rows; the ORDER BY clause admits any score-sorted
permutation; the LIMIT clause truncates.  The rows argument stands for the
scored join the SQLite engine produces, so an empty corpus gives empty
rows. -/
def searchResultValid (rows : List SearchResult) (options : SearchOptions)
    (out : List SearchResult) : Prop :=
  ∃ sorted, orderByScoreValid (retainedRows rows options) sorted ∧
    out = applyLimit (buildSearchQuery options).limitArg sorted

/-! Section 7: the BM25 scoring formula.  The source calls the bm25 SQL
function of SQLite FTS5, which is not part of this repository; the spec
(section 4.3) reconstructs the algorithm explicitly and declares itself
authoritative for it, so the scoring operation is modelled from the spec
here.  Everything except the logarithm is computable. -/

/-- The fixed field schema of the engine (title, content, category). -/
def schemaFields : List String := ["title", "content", "category"]

/-- The raw text of a field of a document. -/
def fieldText (d : Document) (f : String) : String :=
  if f = "title" then d.title
  else if f = "content" then d.content
  else d.category

/-- Modelled from the spec: the token sequence of one field. -/
def specFieldTokens (d : Document) (f : String) : List (List Char) :=
  specTokenize (fieldText d f)

/-- Modelled from the spec (section 4.3): term frequency of t in field f of
the document. -/
def specTf (d : Document) (f : String) (t : List Char) : ℕ :=
  ((specFieldTokens d f).filter (· = t)).length

/-- Modelled from the spec (section 3): document frequency, the number of
distinct documents containing the term in any field. -/
def specDf (corpus : List Document) (t : List Char) : ℕ :=
  (corpus.filter fun d =>
    schemaFields.any fun f => (specFieldTokens d f).contains t).length

/-- Modelled from the spec: token length of field f of the document. -/
def specFieldLen (d : Document) (f : String) : ℕ :=
  (specFieldTokens d f).length

/-- Modelled from the spec: corpus average length of field f. -/
def specAvgFieldLen (corpus : List Document) (f : String) : ℚ :=
  ((corpus.map fun d => specFieldLen d f).sum : ℚ) / (corpus.length : ℚ)

/-- Modelled from the spec (section 4.3): idf(t) = ln((N - df + 0.5) /
(df + 0.5) + 1). -/
noncomputable def specIdf (n df : ℕ) : ℝ :=
  Real.log (((n : ℝ) - (df : ℝ) + 1 / 2) / ((df : ℝ) + 1 / 2) + 1)

/-- Modelled from the spec (section 4.3): the contribution of one (term,
field) pair, w(f) * idf(t) * tf * (k1 + 1) / (tf + norm) with norm =
k1 * ((1 - b) + b * fieldLen / avgFieldLen); a term absent from the field
contributes zero. -/
noncomputable def specContribution (corpus : List Document) (d : Document)
    (t : List Char) (f : String) (w k1 b : ℝ) : ℝ :=
  let tf := specTf d f t
  if tf = 0 then 0
  else
    let norm := k1 * ((1 - b) +
      b * (specFieldLen d f : ℝ) / ((specAvgFieldLen corpus f : ℚ) : ℝ))
    w * specIdf corpus.length (specDf corpus t) * (tf : ℝ) * (k1 + 1) /
      ((tf : ℝ) + norm)

/-- Modelled from the spec (section 4.3): the total score is the sum of the
contributions over all (term, field) pairs. -/
noncomputable def specScore (corpus : List Document) (d : Document)
    (terms : List (List Char)) (w : String → ℝ) (k1 b : ℝ) : ℝ :=
  (terms.map fun t =>
    (schemaFields.map fun f => specContribution corpus d t f (w f) k1 b).sum).sum

/-- Stated from the words of the spec (section 4.5), for comparison with the
embedded percentile code: the percentile is obtained by linear interpolation
between order statistics of the sorted scores, index = p/100 * (n-1),
interpolating between the floor and ceiling order statistics. -/
def specPercentileFormula (sorted : List ℚ) (p : ℕ) : ℚ :=
  let index : ℚ := (p : ℚ) / 100 * ((sorted.length : ℚ) - 1)
  let lo := sorted.getD (⌊index⌋).toNat 0
  let hi := sorted.getD (⌈index⌉).toNat 0
  lo + (index - (⌊index⌋ : ℚ)) * (hi - lo)

/-- Total count held by a histogram bucket list. -/
def sumCounts (bs : List ScoreBucket) : ℕ := (bs.map (·.count)).sum

/-! Concrete instances used by counterexamples and witnesses. -/

/-- A scored row whose title matches the query cat; a second row with the
same score but a different id exhibits a tie. -/
def rowA : SearchResult :=
  { id := 1, title := "cat", content := "", category := "", length := 1,
    created := 0, score := -1 }

/-- A second scored row with the same score as rowA but a larger id. -/
def rowB : SearchResult :=
  { id := 2, title := "cat", content := "", category := "", length := 1,
    created := 0, score := -1 }

/-- Default options with the query cat. -/
def optsCat : SearchOptions := { defaultSearchOptions with query := "cat" }

/-- Options with the query cat and a requested maximum result count of zero,
which is below the documented minimum of one. -/
def optsNoLimit : SearchOptions :=
  { defaultSearchOptions with query := "cat", maxResults := 0 }

/-- A one-document corpus for the explain-consistency check: title cat,
content cat sat, category misc, hence four stored tokens. -/
def doc1 : Document :=
  { id := 1, title := "cat", content := "cat sat", category := "misc",
    length := 4, created := 0 }

/-- The scored row the search pipeline would hand to the explainer for doc1
(the stored score value is copied into the explanation unchanged and plays
no role in the per-term sums). -/
def res1 : SearchResult := { toDocument := doc1, score := -1 }

/-! Section 8: helper lemmas. -/

theorem ratFloor_eq (q : ℚ) : ratFloor q = ⌊q⌋ := Rat.floor_def.symm

theorem ratCeil_eq (q : ℚ) : ratCeil q = ⌈q⌉ := by
  rw [ratCeil, ratFloor_eq, Int.floor_neg, neg_neg]

theorem incrBucket_length (bs : List ScoreBucket) (i : ℕ) :
    (incrBucket bs i).length = bs.length := by
  induction bs generalizing i with
  | nil => rfl
  | cons b bs ih => cases i with
    | zero => rfl
    | succ n => simpa [incrBucket] using ih n

theorem incrBucket_sumCounts (bs : List ScoreBucket) (i : ℕ)
    (h : i < bs.length) : sumCounts (incrBucket bs i) = sumCounts bs + 1 := by
  induction bs generalizing i with
  | nil => simp at h
  | cons b bs ih => cases i with
    | zero => simp [incrBucket, sumCounts]; omega
    | succ n =>
      have := ih n (by simpa using h)
      simp only [incrBucket, sumCounts, List.map_cons, List.sum_cons] at this ⊢
      omega

theorem incrBucket_getD_loHi (bs : List ScoreBucket) (i j : ℕ) :
    ((incrBucket bs i).getD j ⟨0, 0, 0⟩).lo = (bs.getD j ⟨0, 0, 0⟩).lo ∧
    ((incrBucket bs i).getD j ⟨0, 0, 0⟩).hi = (bs.getD j ⟨0, 0, 0⟩).hi := by
  induction bs generalizing i j with
  | nil => simp [incrBucket]
  | cons b bs ih =>
    cases i with
    | zero => cases j <;> simp [incrBucket]
    | succ n => cases j with
      | zero => simp [incrBucket]
      | succ m => simpa [incrBucket] using ih n m

theorem foldl_incrBucket_length (g : ℚ → ℕ) (ss : List ℚ) :
    ∀ bs : List ScoreBucket,
      (ss.foldl (fun acc s => incrBucket acc (g s)) bs).length = bs.length := by
  induction ss with
  | nil => intro bs; rfl
  | cons s ss ih =>
    intro bs
    simpa [incrBucket_length] using ih (incrBucket bs (g s))

theorem foldl_incrBucket_sumCounts (g : ℚ → ℕ) (ss : List ℚ) :
    ∀ bs : List ScoreBucket, (∀ s ∈ ss, g s < bs.length) →
      sumCounts (ss.foldl (fun acc s => incrBucket acc (g s)) bs) =
        sumCounts bs + ss.length := by
  induction ss with
  | nil => intro bs _; rfl
  | cons s ss ih =>
    intro bs h
    have h1 : g s < bs.length := h s (by simp)
    have h2 : ∀ u ∈ ss, g u < (incrBucket bs (g s)).length := by
      intro u hu
      rw [incrBucket_length]
      exact h u (by simp [hu])
    have := ih (incrBucket bs (g s)) h2
    simp only [List.foldl_cons, this, incrBucket_sumCounts bs (g s) h1,
      List.length_cons]
    omega

theorem foldl_incrBucket_getD_loHi (g : ℚ → ℕ) (ss : List ℚ) :
    ∀ (bs : List ScoreBucket) (j : ℕ),
      (((ss.foldl (fun acc s => incrBucket acc (g s)) bs).getD j ⟨0, 0, 0⟩).lo =
        (bs.getD j ⟨0, 0, 0⟩).lo) ∧
      (((ss.foldl (fun acc s => incrBucket acc (g s)) bs).getD j ⟨0, 0, 0⟩).hi =
        (bs.getD j ⟨0, 0, 0⟩).hi) := by
  induction ss with
  | nil => intro bs j; exact ⟨rfl, rfl⟩
  | cons s ss ih =>
    intro bs j
    have h1 := ih (incrBucket bs (g s)) j
    have h2 := incrBucket_getD_loHi bs (g s) j
    simp only [List.foldl_cons]
    exact ⟨h1.1.trans h2.1, h1.2.trans h2.2⟩

theorem goBucketIndex_lt (lo w : ℚ) {n : ℕ} (hn : 0 < n) (s : ℚ) :
    goBucketIndex lo w n s < n := by
  unfold goBucketIndex
  split <;> omega

theorem percentileAt_eq_spec (sorted : List ℚ) (p : ℕ) :
    percentileAt sorted p = specPercentileFormula sorted p := by
  simp only [percentileAt, specPercentileFormula, ratFloor_eq, ratCeil_eq]
  by_cases h : (⌊(p : ℚ) / 100 * ((sorted.length : ℚ) - 1)⌋).toNat =
      (⌈(p : ℚ) / 100 * ((sorted.length : ℚ) - 1)⌉).toNat
  · rw [if_pos h, h]
    ring
  · rw [if_neg h]
    ring

/-! Section 9: claim theorems. -/

/-- C4: for every non-empty list of scores, the statistics operation fills the
percentile table at the levels 25, 50, 75, 90, 95 and 99 with the value given
by linear interpolation between order statistics of the sorted scores, at
index p/100 * (n-1), interpolating between the floor and ceiling order
statistics. -/
theorem percentiles_follow_spec_interpolation (scores : List ℚ)
    (h : scores ≠ []) :
    (calculateScoreDistribution scores).percentiles =
      percentileLevels.map fun p =>
        (p, specPercentileFormula (List.insertionSort (· ≤ ·) scores) p) := by
  have hlen : (List.insertionSort (· ≤ ·) scores).length = scores.length :=
    (List.perm_insertionSort _ scores).length_eq
  have hne : ¬ (List.insertionSort (· ≤ ·) scores).length = 0 := by
    rw [hlen]
    simpa using h
  simp only [calculateScoreDistribution, if_neg hne]
  simp [percentileAt_eq_spec]

theorem percentiles_follow_spec_interpolation_witness :
    ([(2 : ℚ), 1] ≠ []) ∧
    (calculateScoreDistribution [(2 : ℚ), 1]).percentiles =
      percentileLevels.map fun p =>
        (p, specPercentileFormula (List.insertionSort (· ≤ ·) [(2 : ℚ), 1]) p) :=
  ⟨by decide, percentiles_follow_spec_interpolation [2, 1] (by decide)⟩

/-- C6: for every empty result set, GetSearchStats returns the zero-valued
statistics object (zero result count, zero score range, zero distribution,
empty category breakdown) together with a nil error, for any query string and
execution time. -/
theorem empty_results_zero_stats (query : String) (executionTime : ℤ) :
    getSearchStats [] query executionTime =
      .ok { query := query
            totalResults := 0
            executionTime := executionTime
            scoreRange := ScoreRange.zero
            scoreDistrib := ScoreDistribution.zero
            categoryBreakdown := [] } := rfl

theorem empty_results_zero_stats_witness :
    getSearchStats [] "database" 7 =
      .ok { query := "database"
            totalResults := 0
            executionTime := 7
            scoreRange := ScoreRange.zero
            scoreDistrib := ScoreDistribution.zero
            categoryBreakdown := [] } :=
  empty_results_zero_stats "database" 7

/-- C8: a field left out of the column weight map is scored with the default
weight 1.0: the shared weight lookup yields 1, calculateFieldScore records
weight 1 for that field, and when any custom weights are present the query
builder passes the looked-up weight of each schema field (title, content,
category) to the bm25 function, so an unspecified field gets 1.0 there as
well. -/
theorem unspecified_field_weight_is_one (cw : List (String × ℚ))
    (f fieldContent : String) (queryTerms : List String)
    (h : cw.lookup f = none) :
    fieldWeight cw f = 1 ∧
    (calculateFieldScore f fieldContent queryTerms cw).weight = 1 ∧
    ∀ o : SearchOptions, o.columnWeights.isEmpty = false →
      (buildSearchQuery o).weights =
        some (fieldWeight o.columnWeights "title",
          fieldWeight o.columnWeights "content",
          fieldWeight o.columnWeights "category") := by
  refine ⟨?_, ?_, ?_⟩
  · simp [fieldWeight, h]
  · simp [calculateFieldScore, fieldWeight, h]
  · intro o ho
    simp [buildSearchQuery, ho]

theorem unspecified_field_weight_is_one_witness :
    fieldWeight [("title", (2 : ℚ))] "content" = 1 :=
  (unspecified_field_weight_is_one [("title", (2 : ℚ))] "content" "x" ["a"]
    (by decide)).1

theorem getD_range_map {α : Type} (n : ℕ) (f : ℕ → α) (i : ℕ) (d : α)
    (h : i < n) : ((List.range n).map f).getD i d = f i := by
  rw [List.getD_eq_getElem?_getD, List.getElem?_map]
  simp [List.getElem?_range, h]

/-- C5: the statistics operation builds its histogram with the default bucket
count 10; when the minimum equals the maximum, createScoreBuckets returns a
single bucket containing every result; otherwise the divisor max - min of the
width computation is nonzero and the function returns exactly numBuckets
equal-width buckets spanning the range from min to max.  Since the call site
sorts the scores first, the head and last entries play the role of min and
max. -/
theorem histogram_equal_width_buckets (scores : List ℚ) (numBuckets : ℕ)
    (hne : scores ≠ []) (hsort : List.Sorted (· ≤ ·) scores)
    (hb : 0 < numBuckets) :
    (∀ scores0 : List ℚ, (calculateScoreDistribution scores0).buckets =
        createScoreBuckets (List.insertionSort (· ≤ ·) scores0) 10) ∧
    (scores.head?.getD 0 = scores.getLast?.getD (scores.head?.getD 0) →
      createScoreBuckets scores numBuckets =
        [⟨scores.head?.getD 0, scores.getLast?.getD (scores.head?.getD 0),
          scores.length⟩]) ∧
    (scores.head?.getD 0 ≠ scores.getLast?.getD (scores.head?.getD 0) →
      scores.getLast?.getD (scores.head?.getD 0) - scores.head?.getD 0 ≠ 0 ∧
      (createScoreBuckets scores numBuckets).length = numBuckets ∧
      (∀ i, i < numBuckets →
        ((createScoreBuckets scores numBuckets).getD i ⟨0, 0, 0⟩).lo =
          scores.head?.getD 0 + (i : ℚ) *
            ((scores.getLast?.getD (scores.head?.getD 0) -
              scores.head?.getD 0) / (numBuckets : ℚ)) ∧
        ((createScoreBuckets scores numBuckets).getD i ⟨0, 0, 0⟩).hi =
          scores.head?.getD 0 + ((i : ℚ) + 1) *
            ((scores.getLast?.getD (scores.head?.getD 0) -
              scores.head?.getD 0) / (numBuckets : ℚ))) ∧
      ((createScoreBuckets scores numBuckets).getD 0 ⟨0, 0, 0⟩).lo =
        scores.head?.getD 0 ∧
      ((createScoreBuckets scores numBuckets).getD (numBuckets - 1)
          ⟨0, 0, 0⟩).hi =
        scores.getLast?.getD (scores.head?.getD 0)) := by
  obtain ⟨s0, rest, rfl⟩ := List.exists_cons_of_ne_nil hne
  simp only [List.head?_cons, Option.getD_some]
  have hq : ((numBuckets : ℚ)) ≠ 0 := by
    exact_mod_cast Nat.pos_iff_ne_zero.mp hb
  refine ⟨?_, ?_, ?_⟩
  · intro scores0
    unfold calculateScoreDistribution
    by_cases h0 : (List.insertionSort (· ≤ ·) scores0).length = 0
    · rw [if_pos h0, List.length_eq_zero.mp h0]
      rfl
    · rw [if_neg h0]
  · intro h
    simp only [createScoreBuckets, if_pos h]
  · intro h
    have key : ∀ i, i < numBuckets →
        ((createScoreBuckets (s0 :: rest) numBuckets).getD i ⟨0, 0, 0⟩).lo =
          s0 + (i : ℚ) * (((s0 :: rest).getLast?.getD s0 - s0) /
            (numBuckets : ℚ)) ∧
        ((createScoreBuckets (s0 :: rest) numBuckets).getD i ⟨0, 0, 0⟩).hi =
          s0 + ((i : ℚ) + 1) * (((s0 :: rest).getLast?.getD s0 - s0) /
            (numBuckets : ℚ)) := by
      intro i hi
      simp only [createScoreBuckets, if_neg h]
      have hfold := foldl_incrBucket_getD_loHi
        (goBucketIndex s0 (((s0 :: rest).getLast?.getD s0 - s0) /
          (numBuckets : ℚ)) numBuckets)
        (s0 :: rest)
        ((List.range numBuckets).map fun i : ℕ =>
          ({ lo := s0 + (i : ℚ) * (((s0 :: rest).getLast?.getD s0 - s0) /
              (numBuckets : ℚ)),
             hi := s0 + ((i : ℚ) + 1) * (((s0 :: rest).getLast?.getD s0 - s0) /
              (numBuckets : ℚ)),
             count := 0 } : ScoreBucket)) i
      refine ⟨hfold.1.trans ?_, hfold.2.trans ?_⟩ <;>
        rw [getD_range_map _ _ _ _ hi]
    refine ⟨sub_ne_zero.mpr (Ne.symm h), ?_, key, (key 0 hb).1.trans (by ring),
      ?_⟩
    · simp only [createScoreBuckets, if_neg h]
      rw [foldl_incrBucket_length]
      simp
    · have hlast := (key (numBuckets - 1) (by omega)).2
      rw [hlast]
      have hc : ((numBuckets - 1 : ℕ) : ℚ) + 1 = (numBuckets : ℚ) := by
        have : (1 : ℕ) ≤ numBuckets := hb
        push_cast [Nat.cast_sub this]
        ring
      rw [hc]
      field_simp

theorem histogram_equal_width_buckets_witness :
    (createScoreBuckets [(1 : ℚ), 3] 2).length = 2 :=
  ((histogram_equal_width_buckets [(1 : ℚ), 3] 2 (by decide) (by decide)
    (by decide)).2.2 (by decide)).2.1

/-- C9: when the minimum is strictly below the maximum and the bucket count
is positive, every score lands in exactly one histogram bucket (indices that
reach or exceed the bucket count are clamped into the last bucket inside
goBucketIndex), so the bucket counts sum to the number of scores. -/
theorem histogram_counts_sum_to_length (scores : List ℚ) (numBuckets : ℕ)
    (hne : scores ≠ []) (hsort : List.Sorted (· ≤ ·) scores)
    (hlt : scores.head?.getD 0 < scores.getLast?.getD (scores.head?.getD 0))
    (hb : 0 < numBuckets) :
    sumCounts (createScoreBuckets scores numBuckets) = scores.length := by
  obtain ⟨s0, rest, rfl⟩ := List.exists_cons_of_ne_nil hne
  simp only [List.head?_cons, Option.getD_some] at hlt
  have h : ¬ (s0 = (s0 :: rest).getLast?.getD s0) := ne_of_lt hlt
  simp only [createScoreBuckets, if_neg h]
  rw [foldl_incrBucket_sumCounts]
  · simp [sumCounts, List.map_map, Function.comp_def]
  · intro s _
    rw [List.length_map, List.length_range]
    exact goBucketIndex_lt _ _ hb s

theorem histogram_counts_sum_to_length_witness :
    (([(1 : ℚ), 3] : List ℚ) ≠ []) ∧ List.Sorted (· ≤ ·) [(1 : ℚ), 3] ∧
    ((1 : ℚ) < 3) ∧
    sumCounts (createScoreBuckets [(1 : ℚ), 3] 2) = 2 :=
  ⟨by decide, by decide, by decide,
    histogram_counts_sum_to_length [(1 : ℚ), 3] 2 (by decide) (by decide)
      (by decide) (by decide)⟩

theorem foldl_earliest_bounds (cl : List Char) (ts : List (List Char)) :
    ∀ e : ℤ, 0 ≤ e →
      0 ≤ ts.foldl (fun e t =>
          match firstIndex t cl with
          | some pos => if (pos : ℤ) < e then (pos : ℤ) else e
          | none => e) e ∧
        ts.foldl (fun e t =>
          match firstIndex t cl with
          | some pos => if (pos : ℤ) < e then (pos : ℤ) else e
          | none => e) e ≤ e := by
  induction ts with
  | nil => intro e he; exact ⟨he, le_refl e⟩
  | cons t ts ih =>
    intro e he
    simp only [List.foldl_cons]
    cases hfi : firstIndex t cl with
    | none => simpa [hfi] using ih e he
    | some pos =>
      simp only [hfi]
      by_cases hp : (pos : ℤ) < e
      · rw [if_pos hp]
        have h2 := ih (pos : ℤ) (Int.natCast_nonneg pos)
        exact ⟨h2.1, le_trans h2.2 (le_of_lt hp)⟩
      · rw [if_neg hp]
        exact ih e he

theorem snippetEarliestPos_bounds (content query : String) :
    0 ≤ snippetEarliestPos content query ∧
    snippetEarliestPos content query ≤ (content.toList.length : ℤ) := by
  simp only [snippetEarliestPos]
  have h := foldl_earliest_bounds (toLowerL content.toList)
    (fieldsL (toLowerL query.toList)) (content.toList.length : ℤ)
    (Int.natCast_nonneg _)
  split
  · exact ⟨le_refl 0, Int.natCast_nonneg _⟩
  · exact h

theorem snippetClamp_bounds (len ep ml : ℤ) (hlen : 0 ≤ len) (hml : 0 < ml)
    (hep : 0 ≤ ep) :
    0 ≤ (snippetClamp len ep ml).1 ∧
    (snippetClamp len ep ml).1 ≤ (snippetClamp len ep ml).2 ∧
    (snippetClamp len ep ml).2 ≤ len := by
  simp only [snippetClamp]
  have hd : 0 ≤ ml / 4 := Int.ediv_nonneg (le_of_lt hml) (by norm_num)
  split <;> split <;> simp <;> omega

/-- Snippet bounds lie in the content: assembled from the earliest position
bounds and the clamp bounds. -/
theorem snippetBounds_bounds (content query : String) (maxLength0 : ℤ) :
    0 ≤ (snippetBounds content query maxLength0).1 ∧
    (snippetBounds content query maxLength0).1 ≤
      (snippetBounds content query maxLength0).2 ∧
    (snippetBounds content query maxLength0).2 ≤
      (content.toList.length : ℤ) := by
  simp only [snippetBounds]
  have hep := snippetEarliestPos_bounds content query
  apply snippetClamp_bounds
  · exact Int.natCast_nonneg _
  · split <;> omega
  · exact hep.1

/-- C10: for every content, query and maxLength, snippet generation treats a
maxLength of at most zero as 200, clamps its slice boundaries into the range
from zero to the content length, and returns the trimmed concatenation of an
optional leading ellipsis, a contiguous slice of the content, and an optional
trailing ellipsis, never indexing out of bounds. -/
theorem generateSnippet_safe (content query : String) (maxLength0 : ℤ) :
    (maxLength0 ≤ 0 →
      generateSnippet content query maxLength0 =
        generateSnippet content query 200) ∧
    ∃ s e : ℤ, 0 ≤ s ∧ s ≤ e ∧ e ≤ (content.toList.length : ℤ) ∧
      generateSnippet content query maxLength0 =
        trimSpaceL ((if 0 < s then "...".toList else []) ++
          ((content.toList.drop s.toNat).take (e - s).toNat) ++
          (if e < (content.toList.length : ℤ) then "...".toList else [])) := by
  constructor
  · intro h
    unfold generateSnippet snippetBounds
    rw [if_pos h, if_neg (by norm_num : ¬ (200 : ℤ) ≤ 0)]
  · obtain ⟨h1, h2, h3⟩ := snippetBounds_bounds content query maxLength0
    exact ⟨(snippetBounds content query maxLength0).1,
      (snippetBounds content query maxLength0).2, h1, h2, h3, rfl⟩

theorem generateSnippet_safe_witness :
    generateSnippet "abcdef" "cd" (-5) = generateSnippet "abcdef" "cd" 200 :=
  (generateSnippet_safe "abcdef" "cd" (-5)).1 (by decide)

/-- C2 counterexample: the generated SQL orders by score alone, so two rows
with equal scores admit two distinct valid result orderings, including one
in which the larger document id comes first; the claimed two-run determinism
with an id tie-break therefore fails on the code. -/
theorem search_tie_order_not_determined :
    searchResultValid [rowA, rowB] optsCat [rowA, rowB] ∧
    searchResultValid [rowA, rowB] optsCat [rowB, rowA] ∧
    rowA.id < rowB.id ∧ rowA.score = rowB.score ∧
    ([rowA, rowB] : List SearchResult) ≠ [rowB, rowA] :=
  ⟨⟨[rowA, rowB], ⟨by decide, by decide⟩, by decide⟩,
   ⟨[rowB, rowA], ⟨by decide, by decide⟩, by decide⟩,
   by decide, by decide, by decide⟩

/-- C2 amended: every valid execution of the emitted query (whose clause
list contains ORDER BY score and no id tie-break) is sorted ascending by
score, and any two valid executions carry identical score sequences; only
the relative order of equal-score rows may differ between runs. -/
theorem search_sorted_and_scores_deterministic (rows out1 out2 :
    List SearchResult) (o : SearchOptions)
    (h1 : searchResultValid rows o out1) (h2 : searchResultValid rows o out2) :
    List.Sorted (fun a b => a.score ≤ b.score) out1 ∧
    out1.map (·.score) = out2.map (·.score) ∧
    "ORDER BY score" ∈ (buildSearchQuery o).clauses := by
  obtain ⟨s1, ⟨hp1, hs1⟩, he1⟩ := h1
  obtain ⟨s2, ⟨hp2, hs2⟩, he2⟩ := h2
  have hm1 : List.Sorted (· ≤ ·) (s1.map (·.score)) :=
    List.Pairwise.map _ (fun a b h => h) hs1
  have hm2 : List.Sorted (· ≤ ·) (s2.map (·.score)) :=
    List.Pairwise.map _ (fun a b h => h) hs2
  have hmeq : s1.map (·.score) = s2.map (·.score) :=
    List.eq_of_perm_of_sorted ((hp1.trans hp2.symm).map _) hm1 hm2
  refine ⟨?_, ?_, ?_⟩
  · rw [he1]
    cases hlim : (buildSearchQuery o).limitArg with
    | none => simpa [applyLimit] using hs1
    | some n =>
      simpa [applyLimit] using List.Pairwise.sublist (List.take_sublist _ _) hs1
  · rw [he1, he2]
    cases hlim : (buildSearchQuery o).limitArg with
    | none => simpa [applyLimit] using hmeq
    | some n =>
      simp only [applyLimit, List.map_take]
      rw [hmeq]
  · simp [buildSearchQuery]

theorem search_sorted_and_scores_deterministic_witness :
    "ORDER BY score" ∈ (buildSearchQuery optsCat).clauses :=
  (search_sorted_and_scores_deterministic [rowA] [rowA] [rowA] optsCat
    ⟨[rowA], ⟨by decide, by decide⟩, by decide⟩
    ⟨[rowA], ⟨by decide, by decide⟩, by decide⟩).2.2

/-- C3 counterexample: on an empty corpus the score-explanation operation
fails with the database error kind (the AVG aggregate yields NULL and the
scan fails), not an empty-corpus error, and the search operation succeeds
with an empty result set rather than failing at all. -/
theorem empty_corpus_error_kind_counterexample :
    generateScoreExplanations [] [] defaultSearchOptions =
      .error ErrKind.database ∧
    searchResultValid [] defaultSearchOptions [] :=
  ⟨rfl, ⟨[], ⟨by decide, by decide⟩, by decide⟩⟩

/-- C3 amended: on a corpus with zero documents, search returns an empty
result set without error, score explanation fails with the database error
kind, and the embedded error taxonomy of the errors package holds exactly
seven kinds, none of which is an empty-corpus error. -/
theorem empty_corpus_behavior (corpus : List Document)
    (results : List SearchResult) (o : SearchOptions)
    (out : List SearchResult) (hc : corpus = [])
    (h : searchResultValid [] o out) :
    generateScoreExplanations corpus results o = .error ErrKind.database ∧
    out = [] ∧
    ∀ e : ErrKind,
      e = .validation ∨ e = .database ∨ e = .fts5 ∨ e = .notFound ∨
        e = .transaction ∨ e = .analysis ∨ e = .visualization := by
  subst hc
  refine ⟨rfl, ?_, ?_⟩
  · obtain ⟨s, ⟨hp, _⟩, he⟩ := h
    have hs : s = [] := hp.eq_nil
    subst hs
    rw [he]
    cases (buildSearchQuery o).limitArg <;> simp [applyLimit]
  · intro e
    cases e <;> simp

theorem empty_corpus_behavior_witness :
    generateScoreExplanations [] [] optsCat = .error ErrKind.database :=
  (empty_corpus_behavior [] [] optsCat [] rfl
    ⟨[], ⟨by decide, by decide⟩, by decide⟩).1

/-- C7 counterexample: a search request with a maximum result count of zero
(below the documented minimum of one) is not rejected: no LIMIT clause is
emitted, no validation error arises, and a valid non-empty result is
produced. -/
theorem maxresults_below_one_not_rejected :
    optsNoLimit.maxResults < 1 ∧
    (buildSearchQuery optsNoLimit).limitArg = none ∧
    "LIMIT ?" ∉ (buildSearchQuery optsNoLimit).clauses ∧
    searchResultValid [rowA] optsNoLimit [rowA] ∧
    defaultSearchOptions.maxResults = 20 :=
  ⟨by decide, by decide, by decide,
   ⟨[rowA], ⟨by decide, by decide⟩, by decide⟩, by decide⟩

/-- C7 amended: the default maximum result count is 20; a positive maximum
emits a LIMIT clause and every valid result is truncated to at most that
many rows; a maximum below one emits no LIMIT and the full retained row set
is returned (no validation error occurs). -/
theorem maxresults_default_and_truncation (o : SearchOptions)
    (rows out : List SearchResult) (h : searchResultValid rows o out) :
    defaultSearchOptions.maxResults = 20 ∧
    (0 < o.maxResults →
      (buildSearchQuery o).limitArg = some o.maxResults ∧
      out.length ≤ o.maxResults.toNat) ∧
    (o.maxResults ≤ 0 →
      (buildSearchQuery o).limitArg = none ∧
      "LIMIT ?" ∉ (buildSearchQuery o).clauses ∧
      List.Perm out (retainedRows rows o)) := by
  obtain ⟨s, ⟨hp, hs⟩, he⟩ := h
  refine ⟨rfl, ?_, ?_⟩
  · intro hpos
    have hl : (buildSearchQuery o).limitArg = some o.maxResults := by
      simp [buildSearchQuery, hpos]
    refine ⟨hl, ?_⟩
    rw [he, hl]
    simp [applyLimit, List.length_take]
  · intro hneg
    have hnpos : ¬ 0 < o.maxResults := by omega
    have hl : (buildSearchQuery o).limitArg = none := by
      simp [buildSearchQuery, hnpos]
    refine ⟨hl, ?_, ?_⟩
    · by_cases hcat : o.categoryFilter = "" <;>
        simp [buildSearchQuery, hnpos, hcat]
    · rw [he, hl]
      simpa [applyLimit] using hp

theorem maxresults_default_and_truncation_witness :
    (buildSearchQuery optsCat).limitArg = some optsCat.maxResults ∧
    ([rowA] : List SearchResult).length ≤ optsCat.maxResults.toNat :=
  (maxresults_default_and_truncation optsCat [rowA] [rowA]
    ⟨[rowA], ⟨by decide, by decide⟩, by decide⟩).2.1 (by decide)

/-- C1 is refuted by the code: on the one-document corpus doc1 with query
cat, the per-term contributions of the explanation sum to 14/3 (they come
from the mock idf 3 - tf/10 of calculateTermScore, applied to substring
counts over the concatenated fields), while the scoring operation modelled
from the spec gives the document the score 2 ln(4/3), at most 2/3; the two
differ by more than the 1e-9 relative tolerance by nine orders of
magnitude. -/
theorem explain_sum_differs_from_score :
    explanationSums [doc1] [res1] optsCat = .ok [14/3] ∧
    specScore [doc1] doc1 ["cat".toList] (fun _ => 1) (6/5) (3/4) =
      2 * Real.log (4/3) ∧
    ¬ |(14/3 : ℝ) -
          specScore [doc1] doc1 ["cat".toList] (fun _ => 1) (6/5) (3/4)| ≤
        (1/1000000000) *
          |specScore [doc1] doc1 ["cat".toList] (fun _ => 1) (6/5) (3/4)| := by
  have hscore : (calculateTermScore "cat" res1 4).score = 14/3 := by
    have hc : countOccs (toLowerL
        (res1.title ++ " " ++ res1.content ++ " " ++ res1.category).toList)
        "cat".toList = 2 := by decide
    simp only [calculateTermScore, hc]
    norm_num [calculateLengthNormalization, res1, doc1]
  have havg : getAverageDocumentLength [doc1] = .ok 4 := by
    simp [getAverageDocumentLength, doc1]
  have hterms : (fieldsL (toLowerL (optsCat.query.toList))).map
      (fun t => String.mk t) = ["cat"] := by decide
  have hpart1 : explanationSums [doc1] [res1] optsCat = .ok [14/3] := by
    simp only [explanationSums, generateScoreExplanations, havg, hterms]
    simp [explanationTermSum, hscore, Except.map]
  have h5 : specFieldLen doc1 "title" = 1 := by decide
  have h6 : specFieldLen doc1 "content" = 2 := by decide
  have h7 : specAvgFieldLen [doc1] "title" = 1 := by
    simp [specAvgFieldLen, h5]
  have h8 : specAvgFieldLen [doc1] "content" = 2 := by
    simp [specAvgFieldLen, h6]
  have hpart2 : specScore [doc1] doc1 ["cat".toList] (fun _ => 1) (6/5) (3/4) =
      2 * Real.log (4/3) := by
    have h1 : specTf doc1 "title" "cat".toList = 1 := by decide
    have h2 : specTf doc1 "content" "cat".toList = 1 := by decide
    have h3 : specTf doc1 "category" "cat".toList = 0 := by decide
    have h4 : specDf [doc1] "cat".toList = 1 := by decide
    simp only [specScore, schemaFields, List.map_cons, List.map_nil,
      List.sum_cons, List.sum_nil, specContribution, h1, h2, h3, h4, h5, h6,
      h7, h8, specIdf, List.length_cons, List.length_nil]
    norm_num
    ring
  refine ⟨hpart1, hpart2, ?_⟩
  rw [hpart2]
  have hpos : 0 < Real.log (4/3) := Real.log_pos (by norm_num)
  have hle : Real.log (4/3) ≤ 1/3 := by
    have h := Real.log_le_sub_one_of_pos (show (0:ℝ) < 4/3 by norm_num)
    linarith
  intro hcon
  rw [abs_of_pos (by linarith), abs_of_pos (by linarith)] at hcon
  linarith


